import Mathlib

/-!
Shallow embedding of `src/server.py`: the cache slots mutated by the three
refresh loops, the day/night scheduling policy, the transport refresh
cadence, the dinners weekly-window decision, and the transport producer
`fetch_trains`.  Wall-clock time-of-day is modelled as microseconds since
local midnight (a `Nat`), matching Python `datetime`'s microsecond
resolution; calendar dates are modelled as day numbers counted from a
Monday epoch, so `weekday d = d % 7` agrees with Python's
`date.weekday()` (Monday = 0).
-/

/-! ## Cache slots

`_cache` / `_transport_cache` are dicts `{"data", "updated_at", "error"}`.
The loops mutate them in exactly two shapes: on success all three fields
are written (`error = None`), on failure only `error` is written
(`server.py` lines 140-148, 228-236).
-/

/-- A cache slot: `data`, `updated_at`, `error` of `_cache` and
`_transport_cache` in `server.py` (lines 37-38), with the payload and
timestamp types abstract. -/
structure CacheSlot (α τ : Type) where
  payload : Option α
  capturedAt : Option τ
  lastError : Option String
  deriving Repr, DecidableEq

/-- The empty slot at process start: `{"data": None, "updated_at": None,
"error": None}` (`server.py` line 37). -/
def CacheSlot.empty {α τ : Type} : CacheSlot α τ :=
  { payload := none, capturedAt := none, lastError := none }

/-- The success branch of a refresh loop iteration (`server.py` lines
141-143 / 229-231): store the new payload and capture time, clear the
error. -/
def write_success {α τ : Type} (_s : CacheSlot α τ) (v : α) (t : τ) : CacheSlot α τ :=
  { payload := some v, capturedAt := some t, lastError := none }

/-- The failure branch of a refresh loop iteration (`server.py` line 148 /
236): record the error message only. -/
def write_failure {α τ : Type} (s : CacheSlot α τ) (m : String) : CacheSlot α τ :=
  { s with lastError := some m }

/-- Reading a slot copies out the three visible fields (`server.py` lines
430-434). -/
def CacheSlot.read {α τ : Type} (s : CacheSlot α τ) :
    Option α × Option τ × Option String :=
  (s.payload, s.capturedAt, s.lastError)

/-- One iteration outcome of a refresh loop: the producer either succeeded
with a value captured at some time, or failed with a message. -/
inductive SlotOp (α τ : Type) where
  | success (v : α) (t : τ)
  | failure (m : String)
  deriving Repr, DecidableEq

/-- Apply one loop-iteration outcome to a slot. -/
def applyOp {α τ : Type} (s : CacheSlot α τ) : SlotOp α τ → CacheSlot α τ
  | .success v t => write_success s v t
  | .failure m => write_failure s m

/-- Apply a whole sequence of loop-iteration outcomes, oldest first. -/
def applyOps {α τ : Type} (s : CacheSlot α τ) : List (SlotOp α τ) → CacheSlot α τ
  | [] => s
  | op :: rest => applyOps (applyOp s op) rest

/-- The value and capture time of the last success in a sequence of
outcomes, if any. -/
def lastSuccess {α τ : Type} : List (SlotOp α τ) → Option (α × τ)
  | [] => none
  | .success v t :: rest => some ((lastSuccess rest).getD (v, t))
  | .failure _ :: rest => lastSuccess rest

/-! ## Day/night policy and transport cadence (`server.py` lines 68-79,
125-131) -/

/-- `_is_night` (`server.py` lines 68-70): night iff
`hour*60 + minute >= 22*60` or `< 7*60 + 15`. -/
def is_night (hour minute : Nat) : Bool :=
  decide (22 * 60 ≤ hour * 60 + minute) || decide (hour * 60 + minute < 7 * 60 + 15)

/-- Microseconds in one day. -/
def usPerDay : Nat := 86400000000

/-- 07:15:00.000000 in microseconds since midnight. -/
def target715us : Nat := 26100000000

/-- `_secs_until_715` (`server.py` lines 73-79): seconds until the next
07:15, as Python's `timedelta.total_seconds()` of the gap.  `t` is the
current time as microseconds since local midnight; the target rolls over
to the next day when `target <= now`. -/
def secs_until_715 (t : Nat) : ℚ :=
  if target715us ≤ t then ((usPerDay + target715us - t : Nat) : ℚ) / 1000000
  else ((target715us - t : Nat) : ℚ) / 1000000

/-- Hour component of a time-of-day given in microseconds since midnight,
as `datetime.now().hour`. -/
def hourOf (t : Nat) : Nat := t / 3600000000

/-- Minute component of a time-of-day given in microseconds since
midnight, as `datetime.now().minute`. -/
def minuteOf (t : Nat) : Nat := t % 3600000000 / 60000000

/-- `train_refresh_delay` (`server.py` lines 125-131): sleep seconds for
the transport loop, from the current time-of-day `t` in microseconds
since midnight.  `total_mins` is recomputed from the clock's hour and
minute exactly as in the source. -/
def train_refresh_delay (t : Nat) : ℚ :=
  let total_mins := hourOf t * 60 + minuteOf t
  if 22 * 60 ≤ total_mins ∨ total_mins < 7 * 60 + 15 then secs_until_715 t
  else if total_mins < 9 * 60 then 600
  else 3600

/-- `hour*60 + minute` recovered from microseconds-of-day equals total
minutes of day. -/
theorem hour_minute_total (t : Nat) : hourOf t * 60 + minuteOf t = t / 60000000 := by
  unfold hourOf minuteOf
  have h1 : t / 60000000 / 60 = t / 3600000000 := by
    rw [Nat.div_div_eq_div_mul]
  have h2 : t / 60000000 % 60 = t % 3600000000 / 60000000 := by
    have := Nat.mod_mul_right_div_self t 60000000 60
    simpa using this.symm
  calc t / 3600000000 * 60 + t % 3600000000 / 60000000
      = t / 60000000 / 60 * 60 + t / 60000000 % 60 := by rw [h1, h2]
    _ = t / 60000000 := Nat.div_add_mod' _ _

/-! ## Dinners weekly window (`server.py` lines 384-423)

Dates are day numbers counted from a Monday, so `d % 7` is Python's
`date.weekday()` (0 = Monday … 6 = Sunday) and `_current_monday` is
`d - d % 7`. -/

/-- `_current_monday` (`server.py` lines 384-386): the Monday of the week
containing day `d`. -/
def mondayOf (d : Nat) : Nat := d - d % 7

/-- `is_refresh_window` (`server.py` lines 400-403): Saturday, Sunday, or
Monday before noon. -/
def dinners_window (today hour : Nat) : Bool :=
  decide (5 ≤ today % 7) || (decide (today % 7 = 0) && decide (hour < 12))

/-- `should_refresh` (`server.py` line 404): cached week marker differs
from the current Monday and the weekly window is open. -/
def dinners_should_refresh (cachedWeek : Option Nat) (today hour : Nat) : Bool :=
  !(cachedWeek == some (mondayOf today)) && dinners_window today hour

/-- `_dinners_cache` (`server.py` line 39): a cache slot plus the `week`
de-duplication marker. -/
structure DinnersState (δ τ : Type) where
  payload : Option δ
  capturedAt : Option τ
  lastError : Option String
  week : Option Nat
  deriving Repr, DecidableEq

/-- The empty dinners cache at process start (`server.py` line 39). -/
def DinnersState.empty {δ τ : Type} : DinnersState δ τ :=
  { payload := none, capturedAt := none, lastError := none, week := none }

/-- One hourly check of the dinners loop: the date and clock hour at the
check, the timestamp that would be stored, and what the producer would
return if invoked. -/
structure DinnersCheck (δ τ : Type) where
  today : Nat
  hour : Nat
  stamp : τ
  outcome : Except String δ

/-- One iteration of `dinners_refresh_loop` (`server.py` lines 390-423):
if `should_refresh`, invoke the producer — on success store payload,
timestamp, clear the error and set `week` to the current Monday; on
failure record only the error.  Returns the new state and whether the
producer ran. -/
def dinnersStep {δ τ : Type} (s : DinnersState δ τ) (i : DinnersCheck δ τ) :
    DinnersState δ τ × Bool :=
  if dinners_should_refresh s.week i.today i.hour then
    match i.outcome with
    | .ok d =>
      ({ payload := some d, capturedAt := some i.stamp, lastError := none,
         week := some (mondayOf i.today) }, true)
    | .error m => ({ s with lastError := some m }, true)
  else (s, false)

/-- Run a sequence of hourly checks; returns the final state and, per
check, whether the producer ran. -/
def dinnersRun {δ τ : Type} (s : DinnersState δ τ) :
    List (DinnersCheck δ τ) → DinnersState δ τ × List Bool
  | [] => (s, [])
  | i :: rest =>
    let p := dinnersStep s i
    let q := dinnersRun p.1 rest
    (q.1, p.2 :: q.2)

/-! ## Transport producer `fetch_trains` (`server.py` lines 63-65, 84-122)

Each feed's HTTP fetch/parse is modelled as an `Except`: `.error` when the
request or JSON decoding raises (the `try` body fails before any record is
processed), `.ok` with the decoded record list otherwise. -/

/-- A decoded TfL arrivals record: the fields `fetch_trains` reads.
`modeName`, `direction`, `destinationName` are absent when the key is
missing (Python `dict.get`); `timeToStation` is the arrival's
time-to-station in seconds. -/
structure TflRec where
  modeName : Option String
  direction : Option String
  destinationName : Option String
  timeToStation : Int
  deriving Repr, DecidableEq

/-- A decoded transportapi departures record: the fields `fetch_trains`
reads. -/
structure RailRec where
  destination_name : Option String
  best_departure_estimate_mins : Option Int
  status : Option String
  operator_name : Option String
  deriving Repr, DecidableEq

/-- A DLR row of the producer's output. -/
structure DlrEntry where
  destination : String
  mins : Int
  deriving Repr, DecidableEq

/-- A National Rail row of the producer's output. -/
structure RailEntry where
  destination : String
  mins : Option Int
  status : String
  operator_name : String
  deriving Repr, DecidableEq

/-- The producer's combined result `{"dlr": [...], "rail": [...]}`. -/
structure TrainsResult where
  dlr : List DlrEntry
  rail : List RailEntry
  deriving Repr, DecidableEq

/-- `hay` starts with `pat` (character lists). -/
def startsW : List Char → List Char → Bool
  | _, [] => true
  | [], _ :: _ => false
  | a :: as, b :: bs => a == b && startsW as bs

/-- `pat` occurs as a contiguous substring of `hay`, as Python's
`pat in hay` on strings. -/
def hasSub : List Char → List Char → Bool
  | [], pat => pat.isEmpty
  | a :: as, pat => startsW (a :: as) pat || hasSub as pat

/-- Python's `sub in hay` substring test on strings. -/
def strContains (hay sub : String) : Bool := hasSub hay.toList sub.toList

/-- `LONDON_BOUND` (`server.py` line 35). -/
def LONDON_BOUND : List String :=
  ["luton", "bedford", "st albans", "harpenden", "welwyn", "stevenage", "farringdon"]

/-- `_is_london_bound` (`server.py` lines 63-65): the lowercased
destination contains `"london"` or one of the `LONDON_BOUND` names
(`.lower()` modelled per character; the patterns are all ASCII). -/
def is_london_bound (dest : Option String) : Bool :=
  let d := (dest.getD "").toList.map Char.toLower
  hasSub d "london".toList || LONDON_BOUND.any fun x => hasSub d x.toList

/-- Python's `round` of the exact rational `num / den` (`den > 0`):
nearest integer, ties to even. -/
def pyRound (num den : Int) : Int :=
  let q := num.fdiv den
  let r := num.fmod den
  if 2 * r < den then q
  else if den < 2 * r then q + 1
  else if q % 2 = 0 then q
  else q + 1

/-- The filter of the DLR feed (`server.py` lines 91-92): keep records
with `modeName == "dlr"` and `direction == "inbound"`. -/
def dlrKeep (t : TflRec) : Bool :=
  t.modeName == some "dlr" && t.direction == some "inbound"

/-- The comparison the DLR feed is sorted by (`server.py` line 93):
ascending `timeToStation`. -/
def dlrLe (a b : TflRec) : Bool := decide (a.timeToStation ≤ b.timeToStation)

/-- One emitted DLR row (`server.py` lines 95-98): destination (default
`"Unknown"`) and `round(timeToStation / 60)` minutes. -/
def mkDlrEntry (t : TflRec) : DlrEntry :=
  { destination := t.destinationName.getD "Unknown", mins := pyRound t.timeToStation 60 }

/-- The filter of the rail feed (`server.py` lines 108-110): keep records
with a known `best_departure_estimate_mins` whose destination is
London-bound. -/
def railKeep (t : RailRec) : Bool :=
  !(t.best_departure_estimate_mins == none) && is_london_bound t.destination_name

/-- The comparison the rail feed is sorted by (`server.py` line 111):
ascending `best_departure_estimate_mins` (all kept records have one). -/
def railLe (a b : RailRec) : Bool :=
  decide (a.best_departure_estimate_mins.getD 0 ≤ b.best_departure_estimate_mins.getD 0)

/-- One emitted rail row (`server.py` lines 113-118): destination,
estimated minutes, status and operator label. -/
def mkRailEntry (t : RailRec) : RailEntry :=
  { destination := t.destination_name.getD "Unknown",
    mins := t.best_departure_estimate_mins,
    status := t.status.getD "",
    operator_name := t.operator_name.getD "" }

/-- The DLR half of `fetch_trains` (`server.py` lines 91-98): filter, sort
ascending by `timeToStation`, take the 4 soonest, emit rows. -/
def processDlr (l : List TflRec) : List DlrEntry :=
  let arrivals := l.filter dlrKeep
  ((arrivals.mergeSort dlrLe).take 4).map mkDlrEntry

/-- The National Rail half of `fetch_trains` (`server.py` lines 107-118):
filter, sort ascending by the departure estimate, take the 4 soonest, emit
rows. -/
def processRail (l : List RailRec) : List RailEntry :=
  let london_dep := l.filter railKeep
  ((london_dep.mergeSort railLe).take 4).map mkRailEntry

/-- `fetch_trains` (`server.py` lines 84-122): each feed is fetched inside
its own `try`; a raised fetch leaves that feed's list empty (the `except`
only logs), and the combined dict is always returned. -/
def fetch_trains (dlrResp : Except String (List TflRec))
    (railResp : Except String (List RailRec)) : TrainsResult :=
  { dlr := match dlrResp with
      | .ok l => processDlr l
      | .error _ => []
    rail := match railResp with
      | .ok l => processRail l
      | .error _ => [] }

/-! ## Theorems -/

/-- The payload after a sequence of loop outcomes is the last success's
value, or the starting payload when the sequence has no success. -/
theorem applyOps_payload_eq {α τ : Type} (ops : List (SlotOp α τ)) :
    ∀ s : CacheSlot α τ, (applyOps s ops).payload =
      (match lastSuccess ops with
       | some p => some p.1
       | none => s.payload) := by
  induction ops with
  | nil => intro s; rfl
  | cons op rest ih =>
    intro s
    cases op with
    | success v t =>
      simp only [applyOps, applyOp, lastSuccess]
      rw [ih]
      cases lastSuccess rest with
      | none => simp [write_success]
      | some p => simp
    | failure m =>
      simp only [applyOps, applyOp, lastSuccess]
      rw [ih]
      cases lastSuccess rest <;> simp [write_failure]

/-- C1: `write_failure` sets only `last_error`, leaving `payload` and
`captured_at` untouched, so after any sequence of `write_success` /
`write_failure` operations starting from the empty slot, `read()` returns
exactly the payload of the last `write_success`, absent when no
`write_success` occurred. -/
theorem cache_write_failure_frame {α τ : Type} :
    (∀ (s : CacheSlot α τ) (m : String),
      (write_failure s m).payload = s.payload ∧
      (write_failure s m).capturedAt = s.capturedAt ∧
      (write_failure s m).lastError = some m) ∧
    (∀ ops : List (SlotOp α τ),
      (applyOps CacheSlot.empty ops).read.1 =
        (match lastSuccess ops with
         | some p => some p.1
         | none => none)) := by
  constructor
  · intro s m
    exact ⟨rfl, rfl, rfl⟩
  · intro ops
    show (applyOps CacheSlot.empty ops).payload = _
    rw [applyOps_payload_eq]
    cases lastSuccess ops <;> rfl

/-- C2: from any starting slot, any number of failures followed by a
single success with value `v` captured at `t` leaves the slot reading
`payload = v`, `captured_at = t`, `last_error` absent. -/
theorem cache_fail_then_success_read {α τ : Type} :
    ∀ (s : CacheSlot α τ) (ms : List String) (v : α) (t : τ),
      (applyOps s (ms.map SlotOp.failure ++ [SlotOp.success v t])).read =
        (some v, some t, none) := by
  intro s ms v t
  induction ms generalizing s with
  | nil => rfl
  | cons m rest ih => exact ih _

/-- C3: `_is_night` is night exactly on the window at-or-after 22:00 or
strictly-before 07:15, with the four boundary cases 21:59 → day,
22:00 → night, 07:14 → night, 07:15 → day. -/
theorem is_night_boundaries :
    (∀ h m : Nat, m < 60 →
      (is_night h m = true ↔ (22 ≤ h ∨ h < 7 ∨ (h = 7 ∧ m < 15)))) ∧
    is_night 21 59 = false ∧ is_night 22 0 = true ∧
    is_night 7 14 = true ∧ is_night 7 15 = false := by
  refine ⟨?_, by decide, by decide, by decide, by decide⟩
  intro h m hm
  simp only [is_night, Bool.or_eq_true, decide_eq_true_eq]
  omega

/-- Witness for C3 at 23:00. -/
theorem is_night_boundaries_witness : is_night 23 0 = true :=
  (is_night_boundaries.1 23 0 (by decide)).mpr (Or.inl (by decide))

/-- C4: `_secs_until_715` returns the seconds to 07:15 of the same day for
any time strictly before 07:15, and the seconds to 07:15 of the next day
for any time at or after 07:15; at 06:00 it returns 4500 (same day) and at
08:00 it returns 83700 (next day). -/
theorem secs_until_715_rollover :
    (∀ t : Nat, t < usPerDay →
      (t < target715us → secs_until_715 t = 26100 - (t : ℚ) / 1000000) ∧
      (target715us ≤ t → secs_until_715 t = 86400 + 26100 - (t : ℚ) / 1000000)) ∧
    secs_until_715 21600000000 = 4500 ∧
    secs_until_715 28800000000 = 83700 := by
  refine ⟨?_, ?_, ?_⟩
  · intro t ht
    constructor
    · intro hlt
      rw [secs_until_715, if_neg (by unfold target715us at *; omega)]
      have h1 : ((target715us - t : Nat) : ℚ) = 26100000000 - (t : ℚ) := by
        rw [Nat.cast_sub (le_of_lt hlt)]
        norm_num [target715us]
      rw [h1, sub_div]
      norm_num
    · intro hge
      rw [secs_until_715, if_pos hge]
      have h1 : ((usPerDay + target715us - t : Nat) : ℚ) = 112500000000 - (t : ℚ) := by
        rw [Nat.cast_sub (by unfold usPerDay target715us at *; omega)]
        norm_num [usPerDay, target715us]
      rw [h1, sub_div]
      norm_num
  · norm_num [secs_until_715, target715us, usPerDay]
  · norm_num [secs_until_715, target715us, usPerDay]

/-- Witness for C4 at midnight. -/
theorem secs_until_715_rollover_witness :
    secs_until_715 0 = 26100 - (0 : ℚ) / 1000000 :=
  (secs_until_715_rollover.1 0 (by decide)).1 (by decide)

/-- In the night window the transport delay is the time to the next
07:15. -/
theorem delay_eq_secs_of_night (t : Nat)
    (hn : is_night (hourOf t) (minuteOf t) = true) :
    train_refresh_delay t = secs_until_715 t := by
  simp only [is_night, Bool.or_eq_true, decide_eq_true_eq] at hn
  simp only [train_refresh_delay]
  rw [if_pos hn]

/-- Outside the night window and before 09:00 the transport delay is 600
seconds. -/
theorem delay_eq_600_of_morning (t : Nat)
    (hn : is_night (hourOf t) (minuteOf t) = false)
    (h : t < 32400000000) :
    train_refresh_delay t = 600 := by
  have hM := hour_minute_total t
  simp only [is_night, Bool.or_eq_false_iff, decide_eq_false_iff_not] at hn
  simp only [train_refresh_delay]
  rw [if_neg (not_or.mpr hn), if_pos (by rw [hM]; omega)]

/-- Outside the night window and at or after 09:00 the transport delay is
3600 seconds. -/
theorem delay_eq_3600_of_offpeak (t : Nat)
    (hn : is_night (hourOf t) (minuteOf t) = false)
    (h : 32400000000 ≤ t) :
    train_refresh_delay t = 3600 := by
  have hM := hour_minute_total t
  simp only [is_night, Bool.or_eq_false_iff, decide_eq_false_iff_not] at hn
  simp only [train_refresh_delay]
  rw [if_neg (not_or.mpr hn), if_neg (by rw [hM]; omega)]

/-- C5: the transport refresh delay is `secs_until_715` in the night
window, 600 seconds before 09:00 outside the night window, and 3600
seconds otherwise; in particular 08:30 → 600, 12:00 → 3600, and
23:00 → `secs_until_715`. -/
theorem train_refresh_delay_tiers :
    (∀ t : Nat,
      (is_night (hourOf t) (minuteOf t) = true →
        train_refresh_delay t = secs_until_715 t) ∧
      (is_night (hourOf t) (minuteOf t) = false → t < 32400000000 →
        train_refresh_delay t = 600) ∧
      (is_night (hourOf t) (minuteOf t) = false → 32400000000 ≤ t →
        train_refresh_delay t = 3600)) ∧
    train_refresh_delay 30600000000 = 600 ∧
    train_refresh_delay 43200000000 = 3600 ∧
    train_refresh_delay 82800000000 = secs_until_715 82800000000 := by
  refine ⟨fun t => ⟨delay_eq_secs_of_night t, delay_eq_600_of_morning t,
      delay_eq_3600_of_offpeak t⟩, ?_, ?_, ?_⟩
  · exact delay_eq_600_of_morning 30600000000 (by decide) (by decide)
  · exact delay_eq_3600_of_offpeak 43200000000 (by decide) (by decide)
  · exact delay_eq_secs_of_night 82800000000 (by decide)

/-- Witness for C5 at 08:30. -/
theorem train_refresh_delay_tiers_witness : train_refresh_delay 30600000000 = 600 :=
  (train_refresh_delay_tiers.1 30600000000).2.1 (by decide) (by decide)

/-- C10: for every time-of-day, the night guard `_is_night` holds exactly
when `train_refresh_delay` evaluates to `secs_until_715` rather than one
of the fixed 600/3600-second cadences. -/
theorem night_guard_delay_agree :
    ∀ t : Nat, t < usPerDay →
      (is_night (hourOf t) (minuteOf t) = true ↔
        train_refresh_delay t = secs_until_715 t) := by
  intro t ht
  have hM := hour_minute_total t
  constructor
  · exact delay_eq_secs_of_night t
  · intro heq
    by_contra hcon
    have hb : is_night (hourOf t) (minuteOf t) = false := by
      rw [← Bool.not_eq_true]; exact hcon
    have hb' := hb
    simp only [is_night, Bool.or_eq_false_iff, decide_eq_false_iff_not] at hb'
    have ht2 : target715us ≤ t := by
      have := hb'.2
      rw [hM] at this
      unfold target715us
      omega
    have hsec : secs_until_715 t = ((usPerDay + target715us - t : Nat) : ℚ) / 1000000 := by
      rw [secs_until_715, if_pos ht2]
    have hdelay : train_refresh_delay t = 600 ∨ train_refresh_delay t = 3600 := by
      rcases Nat.lt_or_ge t 32400000000 with h | h
      · exact Or.inl (delay_eq_600_of_morning t hb h)
      · exact Or.inr (delay_eq_3600_of_offpeak t hb h)
    have hbig : 26100000000 < usPerDay + target715us - t := by
      unfold usPerDay target715us at *
      omega
    rcases hdelay with hd | hd
    · rw [hd, hsec] at heq
      rw [eq_div_iff (by norm_num : (1000000 : ℚ) ≠ 0)] at heq
      have hc : (usPerDay + target715us - t : Nat) = 600 * 1000000 := by
        exact_mod_cast heq.symm
      omega
    · rw [hd, hsec] at heq
      rw [eq_div_iff (by norm_num : (1000000 : ℚ) ≠ 0)] at heq
      have hc : (usPerDay + target715us - t : Nat) = 3600 * 1000000 := by
        exact_mod_cast heq.symm
      omega

/-- Witness for C10 at midnight. -/
theorem night_guard_delay_agree_witness :
    train_refresh_delay 0 = secs_until_715 0 :=
  (night_guard_delay_agree 0 (by decide)).mp (by decide)


/-- C6: `should_refresh` holds exactly when the cached week marker differs
from the current Monday and today is Saturday, Sunday, or Monday before
noon; the producer is invoked exactly when `should_refresh` holds.  In
particular a marker equal to the current Monday blocks the run on any day,
a prior-week Monday marker on a Sunday triggers it, and a Wednesday never
triggers it regardless of the marker. -/
theorem dinners_should_refresh_spec :
    (∀ (cw : Option Nat) (today hour : Nat),
      dinners_should_refresh cw today hour = true ↔
        (cw ≠ some (mondayOf today) ∧
         (today % 7 = 5 ∨ today % 7 = 6 ∨ (today % 7 = 0 ∧ hour < 12)))) ∧
    (∀ (δ τ : Type) (s : DinnersState δ τ) (i : DinnersCheck δ τ),
      (dinnersStep s i).2 = dinners_should_refresh s.week i.today i.hour) ∧
    (∀ today hour : Nat,
      dinners_should_refresh (some (mondayOf today)) today hour = false) ∧
    (∀ w hour : Nat,
      dinners_should_refresh (some (7 * w)) (7 * w + 13) hour = true) ∧
    (∀ (w hour : Nat) (cw : Option Nat),
      dinners_should_refresh cw (7 * w + 2) hour = false) := by
  refine ⟨?_, ?_, ?_, ?_, ?_⟩
  · intro cw today hour
    simp only [dinners_should_refresh, dinners_window, Bool.and_eq_true,
      Bool.not_eq_true', beq_eq_false_iff_ne, Bool.or_eq_true,
      decide_eq_true_eq]
    constructor
    · rintro ⟨h1, h2⟩
      exact ⟨h1, by omega⟩
    · rintro ⟨h1, h2⟩
      exact ⟨h1, by omega⟩
  · intro δ τ s i
    cases hb : dinners_should_refresh s.week i.today i.hour with
    | false => simp [dinnersStep, hb]
    | true =>
      simp only [dinnersStep, hb, if_true]
      cases i.outcome <;> rfl
  · intro today hour
    simp [dinners_should_refresh]
  · intro w hour
    simp only [dinners_should_refresh, dinners_window, Bool.and_eq_true,
      Bool.not_eq_true', beq_eq_false_iff_ne, Bool.or_eq_true,
      decide_eq_true_eq]
    refine ⟨fun hc => ?_, Or.inl (by omega)⟩
    have h := Option.some.inj hc
    unfold mondayOf at h
    omega
  · intro w hour cw
    have h2 : (7 * w + 2) % 7 = 2 := by omega
    simp [dinners_should_refresh, dinners_window, h2]

/-- When the cached week marker already names the current Monday of every
check in a run, no check invokes the producer and the state never
changes. -/
theorem dinnersRun_blocked {δ τ : Type} (M : Nat) :
    ∀ (rest : List (DinnersCheck δ τ)) (s : DinnersState δ τ),
      s.week = some M → (∀ j ∈ rest, mondayOf j.today = M) →
      (dinnersRun s rest).1 = s ∧
      (dinnersRun s rest).2 = List.replicate rest.length false := by
  intro rest
  induction rest with
  | nil => intro s _ _; exact ⟨rfl, rfl⟩
  | cons j tl ih =>
    intro s hs hall
    have hM : mondayOf j.today = M := hall j (List.mem_cons_self j tl)
    have hdsr : dinners_should_refresh s.week j.today j.hour = false := by
      simp [dinners_should_refresh, hs, hM]
    have hstep : dinnersStep s j = (s, false) := by
      simp only [dinnersStep]
      rw [if_neg (by simp [hdsr])]
    have hrec := ih s hs (fun k hk => hall k (List.mem_cons_of_mem _ hk))
    simp only [dinnersRun, hstep]
    exact ⟨hrec.1, by simp [hrec.2, List.replicate_succ]⟩

/-- C7: in the dinners loop, a failed run leaves `week` at its previous
value while a run that succeeds sets it to the current Monday; once a run
has succeeded, no later check of the same calendar week invokes the
producer again, and while `week` differs from the current Monday any check
inside an open window invokes it (so failures are retried hourly until the
window closes or a success occurs). -/
theorem dinners_week_dedup (δ τ : Type) :
    (∀ (s : DinnersState δ τ) (today hour : Nat) (stamp : τ) (m : String),
      ((dinnersStep s ⟨today, hour, stamp, Except.error m⟩).1).week = s.week) ∧
    (∀ (s : DinnersState δ τ) (today hour : Nat) (stamp : τ) (d : δ),
      dinners_should_refresh s.week today hour = true →
      ((dinnersStep s ⟨today, hour, stamp, Except.ok d⟩).1).week =
        some (mondayOf today)) ∧
    (∀ (s : DinnersState δ τ) (i : DinnersCheck δ τ) (d : δ)
        (rest : List (DinnersCheck δ τ)),
      i.outcome = Except.ok d → (dinnersStep s i).2 = true →
      (∀ j ∈ rest, mondayOf j.today = mondayOf i.today) →
      (dinnersRun (dinnersStep s i).1 rest).2 =
        List.replicate rest.length false) ∧
    (∀ (s : DinnersState δ τ) (i : DinnersCheck δ τ),
      dinners_window i.today i.hour = true →
      s.week ≠ some (mondayOf i.today) →
      (dinnersStep s i).2 = true) := by
  refine ⟨?_, ?_, ?_, ?_⟩
  · intro s today hour stamp m
    simp only [dinnersStep]
    split_ifs <;> rfl
  · intro s today hour stamp d h
    simp only [dinnersStep]
    rw [if_pos h]
  · intro s i d rest hout hrun hall
    rcases i with ⟨td, hr, st, out⟩
    simp only at hout
    subst hout
    have hdsr : dinners_should_refresh s.week td hr = true := by
      by_contra hne
      have hb : dinners_should_refresh s.week td hr = false := by
        rw [← Bool.not_eq_true]; exact hne
      simp [dinnersStep, hb] at hrun
    have h1 : (dinnersStep s ⟨td, hr, st, Except.ok d⟩).1 =
        { payload := some d, capturedAt := some st, lastError := none,
          week := some (mondayOf td) } := by
      simp [dinnersStep, hdsr]
    rw [h1]
    exact (dinnersRun_blocked (mondayOf td) rest _ rfl hall).2
  · intro s i hw hne
    have hdsr : dinners_should_refresh s.week i.today i.hour = true := by
      simp only [dinners_should_refresh, Bool.and_eq_true, Bool.not_eq_true',
        beq_eq_false_iff_ne]
      exact ⟨hne, hw⟩
    simp only [dinnersStep, hdsr, if_true]
    cases i.outcome <;> rfl

/-- Witness for C7: a success on Saturday (day 5) sets the marker to that
week's Monday (day 0); two more checks the following Sunday run nothing;
and with a foreign marker a Sunday check does run. -/
theorem dinners_week_dedup_witness :
    ((dinnersStep (DinnersState.empty : DinnersState Nat Nat)
        ⟨5, 10, 0, Except.ok 1⟩).1).week = some 0 ∧
    (dinnersRun (dinnersStep (DinnersState.empty : DinnersState Nat Nat)
        ⟨5, 10, 0, Except.ok 1⟩).1
        [⟨6, 3, 1, Except.ok 2⟩, ⟨6, 4, 2, Except.error "down"⟩]).2 =
      List.replicate 2 false ∧
    (dinnersStep (⟨none, none, some "down", some 7⟩ : DinnersState Nat Nat)
      ⟨6, 3, 1, Except.ok 2⟩).2 = true := by
  refine ⟨?_, ?_, ?_⟩
  · exact (dinners_week_dedup Nat Nat).2.1 DinnersState.empty 5 10 0 1 (by decide)
  · exact (dinners_week_dedup Nat Nat).2.2.1 DinnersState.empty
      ⟨5, 10, 0, Except.ok 1⟩ 1 _ rfl (by decide) (by decide)
  · exact (dinners_week_dedup Nat Nat).2.2.2 _ ⟨6, 3, 1, Except.ok 2⟩
      (by decide) (by decide)

/-- C8: the transport producer always returns a record with both lists:
a feed whose fetch raises contributes an empty list, and each feed's
output is unaffected by the other feed's outcome. -/
theorem fetch_trains_total :
    (∀ (e : String) (r : Except String (List RailRec)),
      (fetch_trains (Except.error e) r).dlr = []) ∧
    (∀ (d : Except String (List TflRec)) (e : String),
      (fetch_trains d (Except.error e)).rail = []) ∧
    (∀ (d d' : Except String (List TflRec)) (r : Except String (List RailRec)),
      (fetch_trains d r).rail = (fetch_trains d' r).rail) ∧
    (∀ (d : Except String (List TflRec)) (r r' : Except String (List RailRec)),
      (fetch_trains d r).dlr = (fetch_trains d r').dlr) ∧
    (∀ (l : List TflRec) (r : Except String (List RailRec)),
      (fetch_trains (Except.ok l) r).dlr = processDlr l) ∧
    (∀ (d : Except String (List TflRec)) (l : List RailRec),
      (fetch_trains d (Except.ok l)).rail = processRail l) :=
  ⟨fun _ _ => rfl, fun _ _ => rfl, fun _ _ _ => rfl, fun _ _ _ => rfl,
    fun _ _ => rfl, fun _ _ => rfl⟩

/-- C9: feed A is exactly the kept DLR records (inbound, mode `dlr`) in
some order ascending by `timeToStation`, truncated to the 4 soonest and
emitted with rounded minutes; feed B is exactly the kept rail records
(estimate present, London-bound destination) in some order ascending by
the estimate, truncated to the 4 soonest and emitted with status and
operator labels. -/
theorem fetch_trains_feed_pipelines :
    (∀ (l : List TflRec) (r : Except String (List RailRec)),
      ∃ s : List TflRec,
        s.Perm (l.filter dlrKeep) ∧
        s.Pairwise (fun a b => a.timeToStation ≤ b.timeToStation) ∧
        (fetch_trains (Except.ok l) r).dlr = (s.take 4).map mkDlrEntry) ∧
    (∀ (d : Except String (List TflRec)) (l : List RailRec),
      ∃ s : List RailRec,
        s.Perm (l.filter railKeep) ∧
        s.Pairwise (fun a b =>
          a.best_departure_estimate_mins.getD 0 ≤
            b.best_departure_estimate_mins.getD 0) ∧
        (fetch_trains d (Except.ok l)).rail = (s.take 4).map mkRailEntry) := by
  constructor
  · intro l r
    refine ⟨(l.filter dlrKeep).mergeSort dlrLe, List.mergeSort_perm _ _, ?_, rfl⟩
    have h := @List.sorted_mergeSort TflRec dlrLe
      (fun a b c hab hbc => by
        simp only [dlrLe, decide_eq_true_eq] at *
        omega)
      (fun a b => by
        simp only [dlrLe, Bool.or_eq_true, decide_eq_true_eq]
        exact Int.le_total _ _)
      (l.filter dlrKeep)
    exact h.imp fun hab => by simpa [dlrLe] using hab
  · intro d l
    refine ⟨(l.filter railKeep).mergeSort railLe, List.mergeSort_perm _ _, ?_, rfl⟩
    have h := @List.sorted_mergeSort RailRec railLe
      (fun a b c hab hbc => by
        simp only [railLe, decide_eq_true_eq] at *
        omega)
      (fun a b => by
        simp only [railLe, Bool.or_eq_true, decide_eq_true_eq]
        exact Int.le_total _ _)
      (l.filter railKeep)
    exact h.imp fun hab => by simpa [railLe] using hab
